import Mathlib

/-
  Verification development for the FIFO predictive storage-management engine.

  Shallow embedding of the core pipeline of the repository:
    - evaluate_threshold, execute_cleanup     (FIFOEngine/src/cleanup.cpp)
    - compute_forecast                        (forecast.cpp)
    - scan_directory level-2 name handling    (FIFOEngine/src/scanner.cpp)
    - the C facade fifo_evaluate, fifo_cleanup, fifo_execute_full (fifo_api.cpp)
    - Scheduler::execute_once                 (scheduler.cpp)

  C++ double is modelled as the rationals, C++ int and time_t as Int,
  std::string as String.  Filesystem deletion outcomes (DeleteFileA) are an
  oracle parameter, and wall-clock reads are explicit parameters.
-/

namespace FIFO

/-! Error and action codes from fifo_api.h. -/

def FIFO_OK : Int := 0
def FIFO_ERR_DB : Int := -1
def FIFO_ERR_NODATA : Int := -7

def FIFO_ACTION_SAFE : Int := 0
def FIFO_ACTION_MONITOR : Int := 1
def FIFO_ACTION_CAUTION : Int := 2
def FIFO_ACTION_CLEANUP : Int := 3

/-- Embedding of evaluate_threshold from cleanup.cpp lines 13-40.  The C++
function writes the amount through a pointer; the model returns the pair
(action code, amount_to_delete). -/
def evaluate_threshold (predicted_mb limit_mb : ℚ) : Int × ℚ :=
  if limit_mb ≤ 0 then (FIFO_ACTION_SAFE, 0)
  else
    let pct := predicted_mb / limit_mb * 100
    if pct < 85 then (FIFO_ACTION_SAFE, 0)
    else if pct < 90 then (FIFO_ACTION_MONITOR, 0)
    else if pct < 95 then (FIFO_ACTION_CAUTION, 0)
    else
      let target_mb := limit_mb * (70 / 100)
      let to_delete := predicted_mb - target_mb
      (FIFO_ACTION_CLEANUP, if to_delete < 0 then 0 else to_delete)

theorem ite_neg_eq_max (x : ℚ) : (if x < 0 then 0 else x) = max 0 x := by
  rcases lt_or_le x 0 with h | h
  · simp [h, max_eq_left h.le]
  · simp [not_lt.mpr h, max_eq_right h]

/-- C1: evaluate_threshold implements the four-level ladder.  If
limit_mb ≤ 0 the action is SAFE with amount 0; otherwise, with
p = 100·predicted_mb/limit_mb, the action is SAFE when p < 85, MONITOR when
85 ≤ p < 90, CAUTION when 90 ≤ p < 95, and CLEANUP when p ≥ 95, in which
case amount_to_delete = max(0, predicted_mb − 0.70·limit_mb); in all
non-CLEANUP cases the amount is 0.  Stated as a total equation, which pins
the action and the amount on every input and hence all the iff claims. -/
theorem evaluate_threshold_ladder (predicted_mb limit_mb : ℚ) :
    evaluate_threshold predicted_mb limit_mb =
      if limit_mb ≤ 0 then (FIFO_ACTION_SAFE, 0)
      else if 100 * predicted_mb / limit_mb < 85 then (FIFO_ACTION_SAFE, 0)
      else if 100 * predicted_mb / limit_mb < 90 then (FIFO_ACTION_MONITOR, 0)
      else if 100 * predicted_mb / limit_mb < 95 then (FIFO_ACTION_CAUTION, 0)
      else (FIFO_ACTION_CLEANUP, max 0 (predicted_mb - 70 / 100 * limit_mb)) := by
  have hp : predicted_mb / limit_mb * 100 = 100 * predicted_mb / limit_mb := by
    ring
  have ht : predicted_mb - limit_mb * (70 / 100) = predicted_mb - 70 / 100 * limit_mb := by
    ring
  simp only [evaluate_threshold, hp, ht, ite_neg_eq_max]

/-! The facade fifo_evaluate (fifo_api.cpp lines 58-68) reads the cached
forecast g_last_forecast, a static of thread storage duration, hence
zero-initialized before the first fifo_forecast call. -/

/-- ForecastData from forecast.h. -/
structure ForecastData where
  current_mb : ℚ
  predicted_mb : ℚ
  growth_rate : ℚ
  days_available : Int
deriving DecidableEq

/-- EvalResult from fifo_api.h. -/
structure EvalResult where
  action : Int
  projected_pct : ℚ
  amount_to_delete_mb : ℚ
deriving DecidableEq

/-- The zero-initialized static g_last_forecast (fifo_api.cpp line 17). -/
def g_last_forecast_init : ForecastData :=
  { current_mb := 0, predicted_mb := 0, growth_rate := 0, days_available := 0 }

/-- Embedding of fifo_evaluate (fifo_api.cpp lines 58-68), parametrized by
the cached forecast it reads. -/
def fifo_evaluate (g_last_forecast : ForecastData) (limit_mb : ℚ) : Int × EvalResult :=
  let ea := evaluate_threshold g_last_forecast.predicted_mb limit_mb
  (FIFO_OK,
   { action := ea.1
     projected_pct :=
       if 0 < limit_mb then g_last_forecast.predicted_mb / limit_mb * 100 else 0
     amount_to_delete_mb := ea.2 })

/-- C9: before any forecast has been produced, the cached forecast is
zero-initialized, so fifo_evaluate returns FIFO_OK with action SAFE,
amount_to_delete_mb = 0 and projected_pct = 0, for every limit_mb. -/
theorem fifo_evaluate_initial_safe (limit_mb : ℚ) :
    fifo_evaluate g_last_forecast_init limit_mb =
      (FIFO_OK,
       { action := FIFO_ACTION_SAFE, projected_pct := 0, amount_to_delete_mb := 0 }) := by
  simp only [fifo_evaluate, g_last_forecast_init, evaluate_threshold]
  rcases le_or_lt limit_mb 0 with h | h
  · simp [h, not_lt.mpr h]
  · have h85 : (0 : ℚ) / limit_mb * 100 < 85 := by
      simp [zero_div]
    simp [not_le.mpr h, h85, zero_div]

/-! The forecaster (forecast.cpp).  compute_forecast reads
db.get_history(14) and aggregates by date; the model takes the history rows
as an explicit list. -/

/-- StorageRecord from database.h: one storage_history row. -/
structure StorageRecord where
  asset : String
  index_val : Int
  category : Char
  date : String
  size_mb : ℚ
  file_count : Int
deriving DecidableEq

/-- Lexicographic comparison of character lists, the order std::string uses
(byte-wise; identical to code-point order on the ASCII dates involved). -/
def charListLe : List Char → List Char → Bool
  | [], _ => true
  | _ :: _, [] => false
  | a :: as, b :: bs =>
    if a < b then true
    else if b < a then false
    else charListLe as bs

/-- std::string operator ≤ on date strings. -/
def dateLe (a b : String) : Bool :=
  charListLe a.data b.data

/-- The per-date aggregation of compute_forecast (forecast.cpp lines 15-23):
daily_totals[rec.date] += rec.size_mb over a std::map, then the (date, total)
pairs in ascending date order.  Dates are deduplicated, sorted
lexicographically (as std::string keys are), and each is paired with the sum
of size_mb over the rows carrying that date. -/
def daily_totals (history : List StorageRecord) : List (String × ℚ) :=
  (((history.map (·.date)).dedup).insertionSort (fun a b => dateLe a b = true)).map
    (fun d => (d, ((history.filter (fun r => r.date = d)).map (·.size_mb)).sum))

/-- Number of distinct measurement dates in a history window. -/
def dayCount (history : List StorageRecord) : ℕ :=
  ((history.map (·.date)).dedup).length

theorem daily_totals_length (history : List StorageRecord) :
    (daily_totals history).length = dayCount history := by
  simp only [daily_totals, dayCount, List.length_map]
  exact (List.perm_insertionSort _ _).length_eq

/-- Embedding of compute_forecast (forecast.cpp lines 8-61). -/
def compute_forecast (history : List StorageRecord) (current_total_mb : ℚ) :
    ForecastData :=
  let sorted_days := daily_totals history
  let n := sorted_days.length
  if n = 0 then
    { current_mb := current_total_mb, predicted_mb := current_total_mb,
      growth_rate := 0, days_available := (n : Int) }
  else if n = 1 then
    { current_mb := current_total_mb, predicted_mb := current_total_mb,
      growth_rate := 0, days_available := (n : Int) }
  else
    let window := min 7 n
    let vals := sorted_days.map Prod.snd
    let sum := (vals.drop (n - window)).sum
    let moving_avg := sum / (window : ℚ)
    let first_val := vals.headD 0
    let last_val := vals.getLastD 0
    let growth_rate := (last_val - first_val) / (n : ℚ)
    let predicted := moving_avg + growth_rate
    { current_mb := current_total_mb,
      predicted_mb := if predicted < 0 then 0 else predicted,
      growth_rate := growth_rate, days_available := (n : Int) }

/-- C5 counterexample: the claim says predicted_mb ≥ 0 for ANY
current_total_mb, but with an empty history (0 distinct days) the code
returns predicted_mb = current_total_mb without clamping, so a negative
current total yields a negative forecast. -/
theorem compute_forecast_clamp_cex :
    (compute_forecast [] (-1)).predicted_mb < 0 := by
  with_unfolding_all decide

/-- C5 amended: for every history and every nonnegative current_total_mb,
compute_forecast returns predicted_mb ≥ 0.  (The clamp at forecast.cpp line
58 covers the 2-or-more-day branch unconditionally; the 0- and 1-day
branches return current_total_mb itself, hence the nonnegativity
hypothesis.) -/
theorem compute_forecast_nonneg (history : List StorageRecord)
    (current_total_mb : ℚ) (hc : 0 ≤ current_total_mb) :
    0 ≤ (compute_forecast history current_total_mb).predicted_mb := by
  simp only [compute_forecast]
  split
  · exact hc
  · split
    · exact hc
    · split
      · exact le_refl 0
      · exact le_of_not_lt (by assumption)

/-- Witness for compute_forecast_nonneg at an empty history and a
nonnegative current total. -/
theorem compute_forecast_nonneg_witness :
    0 ≤ (compute_forecast [] 5).predicted_mb :=
  compute_forecast_nonneg [] 5 (by norm_num)

/-- C6: with n ≥ 2 distinct days, compute_forecast returns
days_available = n, growth_rate = (last − first)/n over the per-date totals
sorted by date ascending, and predicted_mb = max(0, moving_avg + growth)
where moving_avg is the mean of the last min(7, n) totals. -/
theorem compute_forecast_algo (history : List StorageRecord)
    (current_total_mb : ℚ) (h2 : 2 ≤ dayCount history) :
    (compute_forecast history current_total_mb).days_available
        = (dayCount history : Int) ∧
    (compute_forecast history current_total_mb).growth_rate
        = (((daily_totals history).map Prod.snd).getLastD 0
            - ((daily_totals history).map Prod.snd).headD 0)
          / (dayCount history : ℚ) ∧
    (compute_forecast history current_total_mb).predicted_mb
        = max 0 (
            (((daily_totals history).map Prod.snd).drop
                (dayCount history - min 7 (dayCount history))).sum
              / ((min 7 (dayCount history) : ℕ) : ℚ)
            + (((daily_totals history).map Prod.snd).getLastD 0
                - ((daily_totals history).map Prod.snd).headD 0)
              / (dayCount history : ℚ)) := by
  have hlen := daily_totals_length history
  have h0 : ¬ dayCount history = 0 := by omega
  have h1 : ¬ dayCount history = 1 := by omega
  simp only [compute_forecast, hlen, if_neg h0, if_neg h1, ite_neg_eq_max]
  refine ⟨?_, ?_, ?_⟩ <;> trivial

/-- The S2 scenario history: one prior snapshot of 500 MB and today's
snapshot of 600 MB (written by store_scan_results before the forecast
runs). -/
def histS2 : List StorageRecord :=
  [{ asset := "ASSET1", index_val := 1, category := 'E',
     date := "2025-01-01", size_mb := 500, file_count := 10 },
   { asset := "ASSET1", index_val := 1, category := 'E',
     date := "2025-01-02", size_mb := 600, file_count := 12 }]

set_option maxRecDepth 8000 in
/-- Witness for compute_forecast_algo: the S2 scenario gives
days_available = 2, growth_rate = 50 and predicted_mb = 600. -/
theorem compute_forecast_algo_witness :
    (compute_forecast histS2 600).days_available = 2 ∧
    (compute_forecast histS2 600).growth_rate = 50 ∧
    (compute_forecast histS2 600).predicted_mb = 600 := by
  obtain ⟨h1, h2, h3⟩ := compute_forecast_algo histS2 600 (by decide)
  refine ⟨h1.trans ?_, h2.trans ?_, h3.trans ?_⟩ <;> with_unfolding_all decide

/-! The Reaper (cleanup.cpp lines 42-111).  Physical deletion outcomes
(DeleteFileA) are modelled by an oracle predicate on files; the wall clock
read once at cycle start is an explicit parameter. -/

/-- ScannedFile from scanner.h: one file found by the scan. -/
structure ScannedFile where
  full_path : String
  size_mb : ℚ
  created_time : Int
  asset : String
  index_val : Int
  category : Char
  date : String
deriving DecidableEq

/-- The EntityKey of cleanup.cpp lines 57-66: (asset, index, category). -/
def entKey (f : ScannedFile) : String × Int × Char :=
  (f.asset, f.index_val, f.category)

/-- The entity_counts map built at cleanup.cpp lines 67-70: for each
(asset, index, category), the number of candidate files carrying it
(std::map default-constructs absent keys to 0). -/
def initCounts (files : List ScannedFile) : String × Int × Char → Int :=
  fun k => ((files.filter (fun f => entKey f = k)).length : Int)

/-- CleanupStats from cleanup.h.  new_usage_mb is zero-initialized by the
aggregate init at cleanup.cpp line 45 and never assigned. -/
structure CleanupStats where
  files_deleted : Int
  mb_freed : ℚ
  new_usage_mb : ℚ
deriving DecidableEq

/-- The mutable state of the deletion loop of cleanup.cpp lines 72-106:
freed MB, successful-deletion count, the live per-entity counters, and the
deletion_log rows written so far (modelled by the files logged, in order). -/
structure CleanupState where
  freed : ℚ
  count : Int
  counts : String × Int × Char → Int
  deleted : List ScannedFile

/-- The for-loop of cleanup.cpp lines 75-106 over the sorted candidates.
Break when the budget is reached or the cap is hit; skip files newer than
the retention cutoff; skip files whose entity counter is ≤ 5; on a
successful physical deletion (oracle delete_ok) log the row, add the size,
bump the count and decrement the entity counter; a failed deletion changes
nothing. -/
def cleanupLoop (amount_to_delete_mb : ℚ) (cutoff : Int) (max_deletions : Int)
    (delete_ok : ScannedFile → Bool) :
    List ScannedFile → CleanupState → CleanupState
  | [], st => st
  | f :: rest, st =>
    if amount_to_delete_mb ≤ st.freed ∨ max_deletions ≤ st.count then st
    else if cutoff < f.created_time then
      cleanupLoop amount_to_delete_mb cutoff max_deletions delete_ok rest st
    else if st.counts (entKey f) ≤ 5 then
      cleanupLoop amount_to_delete_mb cutoff max_deletions delete_ok rest st
    else if delete_ok f then
      cleanupLoop amount_to_delete_mb cutoff max_deletions delete_ok rest
        { freed := st.freed + f.size_mb
          count := st.count + 1
          counts := fun k => if k = entKey f then st.counts k - 1 else st.counts k
          deleted := st.deleted ++ [f] }
    else
      cleanupLoop amount_to_delete_mb cutoff max_deletions delete_ok rest st

/-- The in-place std::sort of cleanup.cpp lines 52-54, ascending by
created_time.  std::sort leaves the relative order of ties unspecified; the
model fixes them with a stable sort, which realizes one allowed outcome. -/
def sortByCreated (files : List ScannedFile) : List ScannedFile :=
  files.insertionSort (fun a b => a.created_time ≤ b.created_time)

/-- What a run of execute_cleanup produces: the returned stats, the candidate
vector as left by the call (sorted in place), and the deletion_log rows
appended. -/
structure CleanupOutcome where
  stats : CleanupStats
  files_after : List ScannedFile
  audit : List ScannedFile

/-- Embedding of execute_cleanup (cleanup.cpp lines 42-111).  now is the
time(nullptr) sample at line 48; delete_ok models the DeleteFileA result per
file. -/
def execute_cleanup (files : List ScannedFile) (amount_to_delete_mb : ℚ)
    (now : Int) (min_retention_hours : Int) (max_deletions : Int)
    (delete_ok : ScannedFile → Bool) : CleanupOutcome :=
  if amount_to_delete_mb ≤ 0 ∨ files = [] then
    { stats := { files_deleted := 0, mb_freed := 0, new_usage_mb := 0 },
      files_after := files, audit := [] }
  else
    let cutoff := now - min_retention_hours * 3600
    let sorted := sortByCreated files
    let st := cleanupLoop amount_to_delete_mb cutoff max_deletions delete_ok
      sorted { freed := 0, count := 0, counts := initCounts sorted, deleted := [] }
    { stats := { files_deleted := st.count, mb_freed := st.freed, new_usage_mb := 0 },
      files_after := sorted, audit := st.deleted }

theorem cleanupLoop_retention (amount : ℚ) (cutoff maxDel : Int)
    (ok : ScannedFile → Bool) (l : List ScannedFile) (st : CleanupState)
    (hst : ∀ f ∈ st.deleted, f.created_time ≤ cutoff) :
    ∀ f ∈ (cleanupLoop amount cutoff maxDel ok l st).deleted,
      f.created_time ≤ cutoff := by
  induction l generalizing st with
  | nil => simpa [cleanupLoop] using hst
  | cons f rest ih =>
    simp only [cleanupLoop]
    split
    · exact hst
    · split
      · exact ih st hst
      · split
        · exact ih st hst
        · split
          · refine ih _ ?_
            intro g hg
            simp only [List.mem_append, List.mem_singleton] at hg
            rcases hg with hg | hg
            · exact hst g hg
            · subst hg
              exact le_of_not_lt (by assumption)
          · exact ih st hst

/-- C3: retention floor.  In every run of execute_cleanup, every file in
the deletion audit (equivalently, every deleted file: an audit row is
written exactly on a successful deletion) has
created_time ≤ now − min_retention_hours·3600, with now sampled once at
cycle start. -/
theorem execute_cleanup_retention_floor (files : List ScannedFile)
    (amount_to_delete_mb : ℚ) (now min_retention_hours max_deletions : Int)
    (delete_ok : ScannedFile → Bool) :
    ((execute_cleanup files amount_to_delete_mb now min_retention_hours
        max_deletions delete_ok).audit.all
      (fun f => f.created_time ≤ now - min_retention_hours * 3600)) = true := by
  rw [List.all_eq_true]
  simp only [execute_cleanup]
  split
  · simp
  · intro f hf
    exact decide_eq_true
      (cleanupLoop_retention _ _ _ _ _ _ (by simp) f hf)

theorem cleanupLoop_counts_conservation (amount : ℚ) (cutoff maxDel : Int)
    (ok : ScannedFile → Bool) (l : List ScannedFile) (st : CleanupState)
    (k : String × Int × Char) :
    (cleanupLoop amount cutoff maxDel ok l st).counts k
      + (((cleanupLoop amount cutoff maxDel ok l st).deleted.filter
            (fun f => entKey f = k)).length : Int)
      = st.counts k + ((st.deleted.filter (fun f => entKey f = k)).length : Int) := by
  induction l generalizing st with
  | nil => simp [cleanupLoop]
  | cons f rest ih =>
    simp only [cleanupLoop]
    split
    · rfl
    · split
      · exact ih st
      · split
        · exact ih st
        · split
          · rw [ih]
            simp only [List.filter_append, List.length_append, List.filter_cons,
              List.filter_nil]
            by_cases hk : k = entKey f
            · subst hk
              simp
            · have hk2 : ¬ entKey f = k := fun e => hk e.symm
              simp [hk, hk2]
          · exact ih st

theorem cleanupLoop_floor (amount : ℚ) (cutoff maxDel : Int)
    (ok : ScannedFile → Bool) (l : List ScannedFile) (st : CleanupState)
    (k : String × Int × Char) (h5 : 5 ≤ st.counts k) :
    5 ≤ (cleanupLoop amount cutoff maxDel ok l st).counts k := by
  induction l generalizing st with
  | nil => simpa [cleanupLoop] using h5
  | cons f rest ih =>
    simp only [cleanupLoop]
    split
    · exact h5
    · split
      · exact ih st h5
      · split
        · exact ih st h5
        · split
          · refine ih _ ?_
            simp only
            by_cases hk : k = entKey f
            · rw [if_pos hk, hk]
              rw [hk] at h5
              omega
            · rw [if_neg hk]
              exact h5
          · exact ih st h5

/-- C2: survivor floor.  In every run of execute_cleanup, every
(asset, index, category) entity that starts the cycle with at least 5
candidate files keeps at least 5 undeleted files: the number of audit rows
of that entity plus 5 never exceeds its candidate count. -/
theorem execute_cleanup_survivor_floor (files : List ScannedFile)
    (amount_to_delete_mb : ℚ) (now min_retention_hours max_deletions : Int)
    (delete_ok : ScannedFile → Bool) (k : String × Int × Char)
    (h5 : 5 ≤ (files.filter (fun f => entKey f = k)).length) :
    ((execute_cleanup files amount_to_delete_mb now min_retention_hours
        max_deletions delete_ok).audit.filter (fun f => entKey f = k)).length + 5
      ≤ (files.filter (fun f => entKey f = k)).length := by
  have hpf : ((sortByCreated files).filter (fun f => entKey f = k)).length
      = (files.filter (fun f => entKey f = k)).length :=
    ((List.perm_insertionSort _ files).filter _).length_eq
  simp only [execute_cleanup]
  split
  · simpa using h5
  · have hinit : initCounts (sortByCreated files) k
        = ((files.filter (fun f => entKey f = k)).length : Int) := by
      simp only [initCounts, hpf]
    have hfloor := cleanupLoop_floor amount_to_delete_mb
      (now - min_retention_hours * 3600) max_deletions delete_ok
      (sortByCreated files)
      { freed := 0, count := 0, counts := initCounts (sortByCreated files),
        deleted := [] } k
      (by show (5 : Int) ≤ initCounts (sortByCreated files) k
          rw [hinit]
          exact_mod_cast h5)
    have hcons := cleanupLoop_counts_conservation amount_to_delete_mb
      (now - min_retention_hours * 3600) max_deletions delete_ok
      (sortByCreated files)
      { freed := 0, count := 0, counts := initCounts (sortByCreated files),
        deleted := [] } k
    norm_num [hinit] at hcons
    show ((cleanupLoop amount_to_delete_mb (now - min_retention_hours * 3600)
        max_deletions delete_ok (sortByCreated files)
        { freed := 0, count := 0, counts := initCounts (sortByCreated files),
          deleted := [] }).deleted.filter (fun f => entKey f = k)).length + 5
      ≤ (files.filter (fun f => entKey f = k)).length
    omega

/-- One concrete candidate file of the demo entity. -/
def demoFile (i : Int) : ScannedFile :=
  { full_path := "f", size_mb := 1, created_time := i, asset := "A",
    index_val := 1, category := 'E', date := "2025-01-01" }

/-- Six candidate files of one entity, all far older than retention. -/
def demo6 : List ScannedFile :=
  [demoFile 0, demoFile 1, demoFile 2, demoFile 3, demoFile 4, demoFile 5]

/-- Witness for execute_cleanup_survivor_floor on a concrete run: an entity
with 6 candidates keeps at least 5 files. -/
theorem execute_cleanup_survivor_floor_witness :
    ((execute_cleanup demo6 100 1000000 24 500 (fun _ => true)).audit.filter
        (fun f => entKey f = ("A", 1, 'E'))).length + 5
      ≤ (demo6.filter (fun f => entKey f = ("A", 1, 'E'))).length :=
  execute_cleanup_survivor_floor demo6 100 1000000 24 500 (fun _ => true)
    ("A", 1, 'E') (by with_unfolding_all decide)

/-- Upper bound used by the budget claim: the largest single candidate size
(0 on an empty list; candidate sizes are nonnegative). -/
def maxFileSize (files : List ScannedFile) : ℚ :=
  files.foldr (fun f m => max f.size_mb m) 0

theorem maxFileSize_nonneg (files : List ScannedFile) : 0 ≤ maxFileSize files := by
  induction files with
  | nil => simp [maxFileSize]
  | cons f t ih =>
    simp only [maxFileSize, List.foldr_cons] at ih ⊢
    exact le_trans ih (le_max_right _ _)

theorem le_maxFileSize (files : List ScannedFile) (f : ScannedFile)
    (hf : f ∈ files) : f.size_mb ≤ maxFileSize files := by
  induction files with
  | nil => cases hf
  | cons g t ih =>
    simp only [maxFileSize, List.foldr_cons]
    rcases List.mem_cons.mp hf with h | h
    · rw [h]
      exact le_max_left _ _
    · exact le_trans (ih h) (le_max_right _ _)

theorem cleanupLoop_budget (amount : ℚ) (cutoff maxDel : Int)
    (ok : ScannedFile → Bool) (M : ℚ) (l : List ScannedFile) (st : CleanupState)
    (hM : ∀ f ∈ l, f.size_mb ≤ M)
    (hf : st.freed ≤ amount + M) (hc : st.count ≤ maxDel) :
    (cleanupLoop amount cutoff maxDel ok l st).freed ≤ amount + M ∧
    (cleanupLoop amount cutoff maxDel ok l st).count ≤ maxDel := by
  induction l generalizing st with
  | nil =>
    simp only [cleanupLoop]
    exact ⟨hf, hc⟩
  | cons f rest ih =>
    have hMr : ∀ g ∈ rest, g.size_mb ≤ M :=
      fun g hg => hM g (List.mem_cons_of_mem f hg)
    simp only [cleanupLoop]
    split
    · exact ⟨hf, hc⟩
    · have hnb : ¬(amount ≤ st.freed ∨ maxDel ≤ st.count) := by assumption
      push_neg at hnb
      split
      · exact ih st hMr hf hc
      · split
        · exact ih st hMr hf hc
        · split
          · refine ih _ hMr ?_ ?_
            · have hsz := hM f (List.mem_cons_self f rest)
              have h1 := hnb.1
              simp only
              linarith
            · have h2 := hnb.2
              simp only
              omega
          · exact ih st hMr hf hc

/-- C4: budget bound and deletion cap.  In every run of execute_cleanup
with a nonnegative budget and a nonnegative cap (the callers pass a
positive budget and the default cap 500), the freed size is at most
amount_to_delete_mb plus the largest single candidate size (the budget
check precedes each deletion, so at most one file of overshoot), and
files_deleted never exceeds max_deletions. -/
theorem execute_cleanup_budget_cap (files : List ScannedFile)
    (amount_to_delete_mb : ℚ) (now min_retention_hours max_deletions : Int)
    (delete_ok : ScannedFile → Bool)
    (hamt : 0 ≤ amount_to_delete_mb) (hcap : 0 ≤ max_deletions) :
    (execute_cleanup files amount_to_delete_mb now min_retention_hours
        max_deletions delete_ok).stats.mb_freed
      ≤ amount_to_delete_mb + maxFileSize files ∧
    (execute_cleanup files amount_to_delete_mb now min_retention_hours
        max_deletions delete_ok).stats.files_deleted ≤ max_deletions := by
  simp only [execute_cleanup]
  split
  · exact ⟨add_nonneg hamt (maxFileSize_nonneg files), hcap⟩
  · refine cleanupLoop_budget amount_to_delete_mb
      (now - min_retention_hours * 3600) max_deletions delete_ok
      (maxFileSize files) (sortByCreated files) _ ?_ ?_ hcap
    · intro g hg
      exact le_maxFileSize files g
        ((List.perm_insertionSort _ files).mem_iff.mp hg)
    · exact add_nonneg hamt (maxFileSize_nonneg files)

/-- Witness for execute_cleanup_budget_cap on a concrete run. -/
theorem execute_cleanup_budget_cap_witness :
    (execute_cleanup demo6 100 1000000 24 500 (fun _ => true)).stats.mb_freed
      ≤ 100 + maxFileSize demo6 ∧
    (execute_cleanup demo6 100 1000000 24 500
        (fun _ => true)).stats.files_deleted ≤ 500 :=
  execute_cleanup_budget_cap demo6 100 1000000 24 500 (fun _ => true)
    (by norm_num) (by norm_num)

/-! Scanner level-2 (INDEX) name handling (scanner.cpp lines 13-15 and
81-84).  Strings are viewed through their character lists, matching the
byte-wise C++ iteration on the ASCII names involved. -/

/-- is_number from scanner.cpp lines 13-15: nonempty and every character a
decimal digit. -/
def is_number (s : String) : Bool :=
  !s.data.isEmpty && s.data.all (·.isDigit)

/-- Numeric value of a decimal digit string. -/
def digitsVal (s : String) : ℕ :=
  s.data.foldl (fun acc c => 10 * acc + (c.toNat - 48)) 0

/-- std::stoi as called at scanner.cpp line 83 on an is_number-accepted
name: it returns the numeric value as an int, but throws std::out_of_range
(modelled as Except.error) when the value exceeds INT_MAX = 2147483647 (int
and long are 32-bit on the target platform). -/
def stoi_digits (s : String) : Except String Int :=
  if digitsVal s ≤ 2147483647 then Except.ok (digitsVal s : Int)
  else Except.error "out_of_range"

/-- The level-2 step of scan_directory (scanner.cpp lines 81-84): a
directory name failing is_number is skipped silently (ok none); an accepted
name is handed to std::stoi with no surrounding try/catch, so an overflow
escapes as an uncaught exception and aborts the scan (error). -/
def scan_index_level (name : String) : Except String (Option Int) :=
  if is_number name then (stoi_digits name).map some
  else Except.ok none

/-- C8 divergence: the ten-digit name 9999999999 passes is_number, yet
std::stoi throws std::out_of_range on it (its value exceeds INT_MAX), and
scan_directory does not catch the exception, so the scan aborts instead of
completing normally as the claim states. -/
theorem scan_index_overflow :
    is_number "9999999999" = true ∧
    scan_index_level "9999999999" = Except.error "out_of_range" :=
  ⟨rfl, rfl⟩

/-! The facade (fifo_api.cpp) and the scheduler pipeline (scheduler.cpp).
The database is modelled as the lists of rows of the four tables the
pipeline writes; scan_directory output and clock reads are parameters. -/

/-- ScanResult from scanner.h: totals, the per-aggregation entries (the
exact shape store_scan_results copies into storage_history rows), and the
full file list for the reaper. -/
structure ScanResult where
  total_mb : ℚ
  total_files : Int
  entries : List StorageRecord
  all_files : List ScannedFile
deriving DecidableEq

/-- CleanupResult from fifo_api.h. -/
structure CleanupResult where
  files_deleted : Int
  mb_freed : ℚ
  new_usage_mb : ℚ
  new_usage_pct : ℚ
deriving DecidableEq

/-- Embedding of fifo_cleanup (fifo_api.cpp lines 70-90), with the store
open.  Returns the error code, the CleanupResult written through the out
pointer, and the cached scan as the call leaves it (execute_cleanup takes
g_last_scan.all_files by reference and sorts it in place). -/
def fifo_cleanup (g_last_scan : ScanResult) (limit_mb target_pct : ℚ)
    (now : Int) (delete_ok : ScannedFile → Bool) :
    Int × CleanupResult × ScanResult :=
  let target_mb := limit_mb * target_pct
  let amount := g_last_scan.total_mb - target_mb
  if amount ≤ 0 then
    (FIFO_OK,
     { files_deleted := 0, mb_freed := 0, new_usage_mb := g_last_scan.total_mb,
       new_usage_pct :=
         if 0 < limit_mb then g_last_scan.total_mb / limit_mb * 100 else 0 },
     g_last_scan)
  else
    let oc := execute_cleanup g_last_scan.all_files amount now 24 500 delete_ok
    (FIFO_OK,
     { files_deleted := oc.stats.files_deleted, mb_freed := oc.stats.mb_freed,
       new_usage_mb := g_last_scan.total_mb - oc.stats.mb_freed,
       new_usage_pct :=
         if 0 < limit_mb
         then (g_last_scan.total_mb - oc.stats.mb_freed) / limit_mb * 100
         else 0 },
     { g_last_scan with all_files := oc.files_after })

/-- Computable check that a file list is in ascending created_time order. -/
def sortedByCreated : List ScannedFile → Bool
  | [] => true
  | [_] => true
  | a :: b :: t => (a.created_time ≤ b.created_time) && sortedByCreated (b :: t)

theorem sortedByCreated_of_pairwise :
    ∀ l : List ScannedFile,
      l.Pairwise (fun a b => a.created_time ≤ b.created_time) →
      sortedByCreated l = true
  | [], _ => rfl
  | [_], _ => rfl
  | a :: b :: t, h => by
    rcases List.pairwise_cons.mp h with ⟨ha, ht⟩
    simp only [sortedByCreated, Bool.and_eq_true]
    exact ⟨decide_eq_true (ha b (List.mem_cons_self b t)),
      sortedByCreated_of_pairwise (b :: t) ht⟩

instance : IsTotal ScannedFile fun a b => a.created_time ≤ b.created_time :=
  ⟨fun a b => le_total a.created_time b.created_time⟩

instance : IsTrans ScannedFile fun a b => a.created_time ≤ b.created_time :=
  ⟨fun _ _ _ hab hbc => le_trans hab hbc⟩

/-- A cached scan whose file list is NOT in created_time order. -/
def cexScan : ScanResult :=
  { total_mb := 10, total_files := 2, entries := [],
    all_files := [demoFile 5, demoFile 0] }

/-- C10 counterexample: a fifo_cleanup call whose computed amount is ≤ 0
returns before execute_cleanup runs (fifo_api.cpp line 76), so the cached
scan list is left in scan order — here unsorted — refuting the claim that
after ANY fifo_cleanup call the cached list is in created_time order. -/
theorem fifo_cleanup_no_sort_cex :
    ((fifo_cleanup cexScan 1000 (70 / 100) 1000000 (fun _ => true)).2.2).all_files
        = cexScan.all_files ∧
    sortedByCreated cexScan.all_files = false := by
  constructor
  · with_unfolding_all rfl
  · rfl

/-- C10 amended: execute_cleanup does sort the caller vector in place
(cleanup.cpp lines 52-54), so a fifo_cleanup call that actually reaches the
reaper — computed amount > 0 and a nonempty cached list — leaves the cached
scan list a permutation of itself in ascending created_time order; a call
with amount ≤ 0 returns early and leaves the list untouched. -/
theorem fifo_cleanup_sorts_cache (g_last_scan : ScanResult)
    (limit_mb target_pct : ℚ) (now : Int) (delete_ok : ScannedFile → Bool)
    (hamt : 0 < g_last_scan.total_mb - limit_mb * target_pct)
    (hne : g_last_scan.all_files ≠ []) :
    ((fifo_cleanup g_last_scan limit_mb target_pct now
        delete_ok).2.2).all_files.Perm g_last_scan.all_files ∧
    sortedByCreated
        ((fifo_cleanup g_last_scan limit_mb target_pct now
          delete_ok).2.2).all_files = true := by
  have hA : ¬ (g_last_scan.total_mb - limit_mb * target_pct ≤ 0) :=
    not_le.mpr hamt
  have hB : ¬ (g_last_scan.total_mb - limit_mb * target_pct ≤ 0 ∨
      g_last_scan.all_files = []) := by
    push_neg
    exact ⟨hamt, hne⟩
  simp only [fifo_cleanup, if_neg hA, execute_cleanup, if_neg hB]
  refine ⟨List.perm_insertionSort _ _, ?_⟩
  exact sortedByCreated_of_pairwise _ (List.sorted_insertionSort _ _)

/-- A cached scan over its limit, so that fifo_cleanup reaches the reaper. -/
def overScan : ScanResult :=
  { total_mb := 100, total_files := 2, entries := [],
    all_files := [demoFile 5, demoFile 0] }

/-- Witness for fifo_cleanup_sorts_cache: a concrete call that reaches the
reaper sorts the cached list. -/
theorem fifo_cleanup_sorts_cache_witness :
    ((fifo_cleanup overScan 10 (70 / 100) 1000000
        (fun _ => true)).2.2).all_files.Perm overScan.all_files ∧
    sortedByCreated
        ((fifo_cleanup overScan 10 (70 / 100) 1000000
          (fun _ => true)).2.2).all_files = true :=
  fifo_cleanup_sorts_cache overScan 10 (70 / 100) 1000000 (fun _ => true)
    (by with_unfolding_all decide) (by decide)

/-- The rows of the store tables the pipeline writes (database.cpp): all
four writers are appends except the configuration upsert. -/
structure DbState where
  history : List StorageRecord
  forecasts : List (String × ℚ)
  deletions : List ScannedFile
  config : List (String × String)
deriving DecidableEq

/-- store_scan_results (scanner.cpp lines 161-173): one insert_snapshot
append per scan entry. -/
def store_scan_results (db : DbState) (result : ScanResult) : DbState :=
  { db with history := db.history ++ result.entries }

/-- Database::get_history (database.cpp lines 96-122) as compute_forecast
calls it: the rows whose measurement_date lies in the trailing window
(membership decided by the SQL date comparison, here the oracle inWindow),
ordered by date ascending. -/
def get_history (db : DbState) (inWindow : String → Bool) :
    List StorageRecord :=
  (db.history.filter (fun r => inWindow r.date)).insertionSort
    (fun a b => dateLe a.date b.date = true)

/-- store_forecast (forecast.cpp lines 63-72): appends one
storage_forecast row for tomorrow. -/
def store_forecast (db : DbState) (tomorrow : String) (fd : ForecastData) :
    DbState :=
  { db with forecasts := db.forecasts ++ [(tomorrow, fd.predicted_mb)] }

/-- Database::set_config (database.cpp lines 193-202): INSERT OR REPLACE
upsert on the key. -/
def set_config (db : DbState) (key value : String) : DbState :=
  { db with config := (db.config.filter (fun kv => !(kv.1 == key)))
      ++ [(key, value)] }

/-- FullResult from fifo_api.h. -/
structure FullResult where
  current_mb : ℚ
  predicted_mb : ℚ
  growth_rate : ℚ
  limit_mb : ℚ
  usage_pct : ℚ
  action : Int
  files_deleted : Int
  mb_freed : ℚ
  history_days : Int
deriving DecidableEq

set_option linter.unusedVariables false in
/-- Embedding of fifo_execute_full (fifo_api.cpp lines 92-141) with the
store open.  scanRes is what scan_directory returns for the given root;
inWindow, tomorrow, ts and now are the clock-derived values; delete_ok is
the DeleteFileA oracle.  Note: unlike fifo_scan and
Scheduler::execute_once, this function never tests scanRes.total_files;
and as in the source, the target_pct argument is never read. -/
def fifo_execute_full (db : DbState) (scanRes : ScanResult)
    (limit_mb target_pct : ℚ) (inWindow : String → Bool)
    (tomorrow ts : String) (now : Int) (delete_ok : ScannedFile → Bool) :
    Int × FullResult × DbState :=
  let db1 := store_scan_results db scanRes
  let fd := compute_forecast (get_history db1 inWindow) scanRes.total_mb
  let db2 := store_forecast db1 tomorrow fd
  let ea := evaluate_threshold fd.predicted_mb limit_mb
  let oc :=
    if ea.1 = FIFO_ACTION_CLEANUP ∧ 0 < ea.2 then
      execute_cleanup scanRes.all_files ea.2 now 24 500 delete_ok
    else
      { stats := { files_deleted := 0, mb_freed := 0, new_usage_mb := 0 },
        files_after := scanRes.all_files, audit := [] }
  let db3 := { db2 with deletions := db2.deletions ++ oc.audit }
  let db4 := set_config db3 "last_run" ts
  (FIFO_OK,
   { current_mb := scanRes.total_mb, predicted_mb := fd.predicted_mb,
     growth_rate := fd.growth_rate, limit_mb := limit_mb,
     usage_pct := if 0 < limit_mb then scanRes.total_mb / limit_mb * 100 else 0,
     action := ea.1, files_deleted := oc.stats.files_deleted,
     mb_freed := oc.stats.mb_freed, history_days := fd.days_available },
   db4)

/-- Embedding of Scheduler::execute_once (scheduler.cpp lines 228-265),
the same pipeline with the zero-files guard at lines 234-237. -/
def scheduler_execute_once (db : DbState) (scanRes : ScanResult)
    (limit_mb : ℚ) (inWindow : String → Bool) (tomorrow ts : String)
    (now : Int) (delete_ok : ScannedFile → Bool) : Int × DbState :=
  if scanRes.total_files = 0 then (FIFO_ERR_NODATA, db)
  else
    let db1 := store_scan_results db scanRes
    let fd := compute_forecast (get_history db1 inWindow) scanRes.total_mb
    let db2 := store_forecast db1 tomorrow fd
    let ea := evaluate_threshold fd.predicted_mb limit_mb
    let oc :=
      if ea.1 = FIFO_ACTION_CLEANUP ∧ 0 < ea.2 then
        execute_cleanup scanRes.all_files ea.2 now 24 500 delete_ok
      else
        { stats := { files_deleted := 0, mb_freed := 0, new_usage_mb := 0 },
          files_after := scanRes.all_files, audit := [] }
    let db3 := { db2 with deletions := db2.deletions ++ oc.audit }
    let db4 := set_config db3 "last_run" ts
    (FIFO_OK, db4)

/-- Scheduler::execute_once does satisfy the no-data contract: with zero
total files it returns FIFO_ERR_NODATA and leaves the store untouched. -/
theorem scheduler_execute_once_nodata (db : DbState) (scanRes : ScanResult)
    (limit_mb : ℚ) (inWindow : String → Bool) (tomorrow ts : String)
    (now : Int) (delete_ok : ScannedFile → Bool)
    (h0 : scanRes.total_files = 0) :
    scheduler_execute_once db scanRes limit_mb inWindow tomorrow ts now
        delete_ok = (FIFO_ERR_NODATA, db) := by
  simp [scheduler_execute_once, h0]

/-- Witness for scheduler_execute_once_nodata at a concrete empty scan. -/
theorem scheduler_execute_once_nodata_witness :
    scheduler_execute_once
        { history := [], forecasts := [], deletions := [], config := [] }
        { total_mb := 0, total_files := 0, entries := [], all_files := [] }
        1000 (fun _ => false) "2025-01-02" "2025-01-01 03:00:00" 0
        (fun _ => false)
      = (FIFO_ERR_NODATA,
         { history := [], forecasts := [], deletions := [], config := [] }) :=
  scheduler_execute_once_nodata _ _ 1000 (fun _ => false) "2025-01-02"
    "2025-01-01 03:00:00" 0 (fun _ => false) rfl

/-- The empty store and the scan of a root with no schema-valid files. -/
def emptyDb : DbState :=
  { history := [], forecasts := [], deletions := [], config := [] }

/-- A scan with total_files = 0 (which forces empty entries and files). -/
def emptyScan : ScanResult :=
  { total_mb := 0, total_files := 0, entries := [], all_files := [] }

/-- C7 divergence: on a scan with zero schema-valid files,
fifo_execute_full returns FIFO_OK — not FIFO_ERR_NODATA — and still
persists a forecast row and the last_run config entry (it writes no
snapshot row only because the scan has no entries).  The zero-files guard
present in fifo_scan and Scheduler::execute_once is absent from
fifo_execute_full. -/
theorem fifo_execute_full_nodata_divergence :
    (fifo_execute_full emptyDb emptyScan 1000 (70 / 100) (fun _ => false)
        "2025-01-02" "2025-01-01 03:00:00" 0 (fun _ => false)).1 = FIFO_OK ∧
    (fifo_execute_full emptyDb emptyScan 1000 (70 / 100) (fun _ => false)
        "2025-01-02" "2025-01-01 03:00:00" 0 (fun _ => false)).1
      ≠ FIFO_ERR_NODATA ∧
    (fifo_execute_full emptyDb emptyScan 1000 (70 / 100) (fun _ => false)
        "2025-01-02" "2025-01-01 03:00:00" 0 (fun _ => false)).2.2.forecasts
      = [("2025-01-02", 0)] ∧
    (fifo_execute_full emptyDb emptyScan 1000 (70 / 100) (fun _ => false)
        "2025-01-02" "2025-01-01 03:00:00" 0 (fun _ => false)).2.2.config
      = [("last_run", "2025-01-01 03:00:00")] := by
  refine ⟨?_, ?_, ?_, ?_⟩
  · with_unfolding_all rfl
  · with_unfolding_all decide
  · with_unfolding_all rfl
  · with_unfolding_all rfl

end FIFO
